import Mathlib

/-!
# Verification of the `throttler` rate-limiting service

Shallow embedding of the admission engine of the `throttler` repository:
the token-bucket algorithm (`src/token_bucket.rs`), the local rate limiter
(`src/rate_limiter.rs`), the distributed atomic consume Lua script
(`src/redis.rs`), the request validation (`src/validation.rs`) and the
throttler orchestrator (`src/throttler.rs`).

Modelling conventions:
* Rust `f64` values (token counts, refill rates) are modelled as exact
  rationals `ℚ`; every rational is finite, so the source's NaN/infinity
  guards become vacuous and the `is_finite` conjunct of
  `TokenBucket::refill` reduces to the `tokens_to_add > 0.0` test.
* Rust `u64` timestamps and capacities are modelled as `ℕ`;
  `u64::saturating_sub` is `Nat` subtraction (truncated at zero).
* `std::time::Duration` results are modelled as a rational number of
  seconds (`Duration::from_secs_f64` is exact in this model).
* Wall-clock reads (`SystemTime::now`) are passed in explicitly as a
  `now` parameter, turning each stateful method into a pure function.
-/

namespace Throttler

/-- Embeds `TokenBucket` from `src/token_bucket.rs`: capacity (`u64`),
fractional token count (`f64`, modelled as `ℚ`), refill rate in tokens per
second (`f64`, modelled as `ℚ`), and the last-refill timestamp in
milliseconds since the epoch (`u64`, modelled as `ℕ`). -/
structure TokenBucket where
  capacity : ℕ
  tokens : ℚ
  refill_rate : ℚ
  last_refill : ℕ
  deriving DecidableEq

namespace TokenBucket

/-- Embeds `TokenBucket::new`: a fresh bucket starts full. -/
def new (capacity : ℕ) (refill_rate : ℚ) (now : ℕ) : TokenBucket :=
  { capacity := capacity
    tokens := (capacity : ℚ)
    refill_rate := refill_rate
    last_refill := now }

/-- Embeds `TokenBucket::refill` (src/token_bucket.rs lines 193-216).
`elapsed_ms = now.saturating_sub(last_refill)` capped at one hour; if the
elapsed seconds are below `0.001` the bucket is returned unchanged;
otherwise `tokens_to_add = refill_rate * seconds_elapsed` is added and the
result clamped at capacity, but only when `tokens_to_add` is finite and
strictly positive (finiteness is automatic over `ℚ`); `last_refill` is set
to `now` in that branch regardless of the sign of `tokens_to_add`. -/
def refill (now : ℕ) (b : TokenBucket) : TokenBucket :=
  let elapsed_ms : ℕ := now - b.last_refill
  let safe_elapsed_ms : ℕ := min elapsed_ms 3600000
  let seconds_elapsed : ℚ := (safe_elapsed_ms : ℚ) / 1000
  if seconds_elapsed < 1 / 1000 then b
  else
    let tokens_to_add : ℚ := b.refill_rate * seconds_elapsed
    let tokens' : ℚ :=
      if 0 < tokens_to_add then min (b.tokens + tokens_to_add) (b.capacity : ℚ)
      else b.tokens
    { b with tokens := tokens', last_refill := now }

/-- Embeds `TokenBucket::try_consume` (src/token_bucket.rs lines 161-172):
refill first, then consume `tokens` if at least that many are available.
Returns the allow/deny flag together with the updated bucket. -/
def try_consume (now : ℕ) (n : ℕ) (b : TokenBucket) : Bool × TokenBucket :=
  let b' := refill now b
  if (n : ℚ) ≤ b'.tokens then (true, { b' with tokens := b'.tokens - (n : ℚ) })
  else (false, b')

/-- Embeds `TokenBucket::time_until_tokens` (src/token_bucket.rs lines
256-278), returning the wait as a rational number of seconds (the model of
the returned `Duration`): refill, return `0` if enough tokens are present,
return `u64::MAX` seconds when `refill_rate ≤ 0`, otherwise
`(n - tokens) / refill_rate` seconds capped at 24 hours (86400 s). -/
def time_until_tokens (now : ℕ) (n : ℕ) (b : TokenBucket) : ℚ × TokenBucket :=
  let b' := refill now b
  if (n : ℚ) ≤ b'.tokens then (0, b')
  else if b'.refill_rate ≤ 0 then ((2 ^ 64 - 1 : ℚ), b')
  else (min (((n : ℚ) - b'.tokens) / b'.refill_rate) 86400, b')

end TokenBucket

/-- Embeds `LocalBucket` from `src/rate_limiter.rs`: the in-memory bucket
state stored per key by the local rate limiter. -/
structure LocalBucket where
  tokens : ℚ
  capacity : ℕ
  refill_rate : ℚ
  last_refill : ℕ
  deriving DecidableEq

/-- The per-bucket core of `RateLimiter::check_rate_limit_with_params`
(src/rate_limiter.rs lines 180-194), acting on the entry obtained from the
map (existing, or freshly inserted full): inline refill using the BUCKET's
stored `capacity` and `refill_rate` (with no elapsed-time cap and no
sub-millisecond early return, unlike `TokenBucket::refill`), set
`last_refill` to `current_time` unconditionally, then consume one token if
at least one is available. Returns `((allowed, remaining), bucket')`. -/
def localConsumeBucket (now : ℕ) (b : LocalBucket) : (Bool × ℕ) × LocalBucket :=
  let elapsed_ms : ℕ := now - b.last_refill
  let elapsed_secs : ℚ := (elapsed_ms : ℚ) / 1000
  let tokens_to_add : ℚ := b.refill_rate * elapsed_secs
  let tokens1 : ℚ := min (b.tokens + tokens_to_add) (b.capacity : ℚ)
  if 1 ≤ tokens1 then
    ((true, Int.toNat ⌊tokens1 - 1⌋),
     { b with tokens := tokens1 - 1, last_refill := now })
  else
    ((false, 0), { b with tokens := tokens1, last_refill := now })

/-- Embeds `RateLimiter::check_rate_limit_with_params`
(src/rate_limiter.rs lines 157-194) as a pure function over the local
bucket map (`HashMap<String, LocalBucket>` modelled as
`String → Option LocalBucket`). The entry API creates a full bucket from
the caller's `capacity`/`refill_rate` only when the key is absent; an
existing bucket is used as stored. -/
def checkRateLimitWithParams (now : ℕ) (key : String) (capacity : ℕ)
    (refill_rate : ℚ) (buckets : String → Option LocalBucket) :
    (Bool × ℕ) × (String → Option LocalBucket) :=
  let bucket : LocalBucket :=
    match buckets key with
    | some b => b
    | none =>
        { tokens := (capacity : ℚ)
          capacity := capacity
          refill_rate := refill_rate
          last_refill := now }
  let (res, b') := localConsumeBucket now bucket
  (res, fun k => if k = key then some b' else buckets k)

/-- Embeds `RateLimiter::get_remaining_tokens` (src/rate_limiter.rs lines
197-205): the floor of the stored token count (`as u64` saturates negative
values to zero), or the configured default capacity when no bucket exists
for the key. Does not consume or refill. -/
def getRemainingTokens (defaultCapacity : ℕ) (key : String)
    (buckets : String → Option LocalBucket) : ℕ :=
  match buckets key with
  | some b => Int.toNat ⌊b.tokens⌋
  | none => defaultCapacity

/-- Embeds the local-map effect of `RateLimiter::reset`
(src/rate_limiter.rs lines 208-219): the key's bucket is removed from the
local map (in distributed mode the Redis entry is deleted as well, which
this local model represents by the same absence of state). -/
def resetBuckets (key : String) (buckets : String → Option LocalBucket) :
    String → Option LocalBucket :=
  fun k => if k = key then none else buckets k

/-- Embeds the bucket value manipulated by the Lua script of
`RedisClient::atomic_consume_tokens` (src/redis.rs lines 209-251). A
stored value deserialized from a `TokenBucket` JSON carries `tokens`,
`capacity`, `refill_rate` and `last_refill`; values first created by the
script also carry `window_ms`. The script reads and writes only `tokens`
and `last_refill` of an existing value, so the remaining fields ride
along unchanged. -/
structure RedisBucket where
  tokens : ℚ
  capacity : ℕ
  refill_rate : ℚ
  window_ms : ℕ
  last_refill : ℕ
  deriving DecidableEq

/-- The refill step of the Lua script for an existing stored bucket
(src/redis.rs lines 223-229): `time_elapsed = current_time - last_refill`
as a signed quantity; only when it is strictly positive, add
`math.floor(time_elapsed * refill_rate / window_ms)` tokens, clamp at the
caller-supplied `capacity`, and advance `last_refill` to `current_time`. -/
def redisRefill (now : ℕ) (capacity : ℕ) (refill_rate : ℚ) (window_ms : ℕ)
    (b : RedisBucket) : RedisBucket :=
  let time_elapsed : ℤ := (now : ℤ) - (b.last_refill : ℤ)
  if 0 < time_elapsed then
    let tokens_to_add : ℤ := ⌊(time_elapsed : ℚ) * refill_rate / (window_ms : ℚ)⌋
    { b with tokens := min (capacity : ℚ) (b.tokens + (tokens_to_add : ℚ))
             last_refill := now }
  else b

/-- The consume step of the Lua script (src/redis.rs lines 240-244):
subtract `tokens_to_consume` when available, returning the success flag. -/
def redisConsume (n : ℕ) (b : RedisBucket) : Bool × RedisBucket :=
  if (n : ℚ) ≤ b.tokens then (true, { b with tokens := b.tokens - (n : ℚ) })
  else (false, b)

/-- The TTL in seconds that the Lua script passes to `EXPIRE` on every
write (src/redis.rs line 248): `math.ceil(window_ms / 1000)`. -/
def atomicConsumeTTL (window_ms : ℕ) : ℕ :=
  Int.toNat ⌈(window_ms : ℚ) / 1000⌉

/-- Embeds `RedisClient::atomic_consume_tokens` (src/redis.rs lines
204-296) as a pure function of the stored value for the key: refill the
existing bucket (or create a full one carrying the caller's parameters),
attempt the consume, and write the result back with the TTL of
`atomicConsumeTTL`. Returns `(success, stored bucket after, ttl)`. -/
def atomicConsumeTokens (now : ℕ) (n : ℕ) (capacity : ℕ) (refill_rate : ℚ)
    (window_ms : ℕ) (stored : Option RedisBucket) : Bool × RedisBucket × ℕ :=
  let bucket : RedisBucket :=
    match stored with
    | some b => redisRefill now capacity refill_rate window_ms b
    | none =>
        { tokens := (capacity : ℚ)
          capacity := capacity
          refill_rate := refill_rate
          window_ms := window_ms
          last_refill := now }
  let (success, b') := redisConsume n bucket
  (success, b', atomicConsumeTTL window_ms)

/-- The character class accepted for a rate-limit key by
`RequestValidator::validate_request_params` (src/validation.rs line 74):
`c.is_alphanumeric() || c == '-' || c == '_'`. Keys are modelled over
ASCII characters, on which Rust's Unicode `char::is_alphanumeric`
coincides with `Char.isAlphanum`. -/
def isValidKeyChar (c : Char) : Bool :=
  c.isAlphanum || c = '-' || c = '_'

/-- Models `str::trim` on ASCII character lists: drop whitespace from both
ends (Rust and Lean agree on ASCII whitespace for the characters that can
occur here). -/
def trimChars (l : List Char) : List Char :=
  ((l.dropWhile Char.isWhitespace).reverse.dropWhile Char.isWhitespace).reverse

/-- Embeds the key-acceptance decision of
`RequestValidator::validate_request_params` (src/validation.rs lines
45-88) restricted to the `key` parameter: the key is trimmed, rejected
when the trimmed result is empty, and rejected unless every character is
alphanumeric, a hyphen or an underscore (a `ValidationError` is returned
in the rejecting cases). There is no length bound. -/
def validateKeyChars (key : List Char) : Bool :=
  let k := trimChars key
  !k.isEmpty && k.all isValidKeyChar

/-- Modelled from the spec (§6 key grammar), for comparison with the
source's `validateKeyChars`: a key is valid iff it is non-empty, at most
256 bytes long, and every byte is in `[A-Z a-z 0-9 _ . -]` (over ASCII
characters, bytes and characters coincide). -/
def specKeyGrammar (key : List Char) : Bool :=
  !key.isEmpty && key.length ≤ 256 &&
    key.all (fun c => c.isAlphanum || c = '_' || c = '.' || c = '-')

/-- Embeds `RateLimitRule` from `src/rate_limit_config.rs`:
`requests_per_second` (`u32`), `burst_capacity` (`u32`), `window_size`
(a `Duration`, modelled in milliseconds) and the `enabled` flag. -/
structure RateLimitRule where
  requests_per_second : ℕ
  burst_capacity : ℕ
  window_size_ms : ℕ
  enabled : Bool
  deriving DecidableEq

/-- Embeds `RateLimitRule::default` (src/rate_limit_config.rs lines
38-47): 10 requests per second, burst capacity 20, a 60 second window,
enabled. -/
def defaultRule : RateLimitRule :=
  { requests_per_second := 10
    burst_capacity := 20
    window_size_ms := 60000
    enabled := true }

/-- The rule resolved for a key: the explicitly configured rule if one is
stored, the default rule otherwise (`RateLimitConfig::get_rule`,
src/rate_limit_config.rs lines 51-53, and the `unwrap_or_default` in
`Throttler::get_rate_limit_status`). -/
def resolvedRule (rules : String → Option RateLimitRule) (key : String) :
    RateLimitRule :=
  (rules key).getD defaultRule

/-- The configuration fields of `Config` that the rate limiter reads:
`default_capacity` and `default_refill_rate` (src/config.rs, used by
`RateLimiter::check_rate_limit`). -/
structure Config where
  default_capacity : ℕ
  default_refill_rate : ℚ
  deriving DecidableEq

/-- The mutable state of a `Throttler` (src/throttler.rs): the per-key
rule map and the rate limiter's local bucket map. -/
structure ThrottlerState where
  rules : String → Option RateLimitRule
  buckets : String → Option LocalBucket

/-- Embeds `Throttler::should_throttle` (src/throttler.rs lines 163-179):
if an explicit rule exists for the key and is disabled, return `false`
(allowed) without touching any bucket; otherwise run
`RateLimiter::check_rate_limit`, which consumes from the local bucket map
with the CONFIG's default capacity and refill rate, and return the negated
allow flag. Returns `(throttled, state after)`. -/
def shouldThrottle (cfg : Config) (now : ℕ) (key : String)
    (s : ThrottlerState) : Bool × ThrottlerState :=
  match s.rules key with
  | some r =>
      if !r.enabled then (false, s)
      else
        let ((allowed, _), buckets') :=
          checkRateLimitWithParams now key cfg.default_capacity
            cfg.default_refill_rate s.buckets
        (!allowed, { s with buckets := buckets' })
  | none =>
      let ((allowed, _), buckets') :=
        checkRateLimitWithParams now key cfg.default_capacity
          cfg.default_refill_rate s.buckets
      (!allowed, { s with buckets := buckets' })

/-- A concrete throttler state whose every key carries a disabled rule and
an empty bucket map, used to witness the disabled-rule bypass. -/
def disabledState : ThrottlerState :=
  { rules := fun _ => some ⟨10, 10, 60000, false⟩
    buckets := fun _ => none }

/-! ## Theorems -/

/-- The TTL argument the Lua script hands to `EXPIRE`, expressed as a
natural ceiling division: `⌈window_ms / 1000⌉ = (window_ms + 999) div 1000`. -/
theorem ttl_ceil_eq (w : ℕ) : Int.toNat ⌈(w : ℚ) / 1000⌉ = (w + 999) / 1000 := by
  have h1 : 1000 * ((w + 999) / 1000) + (w + 999) % 1000 = w + 999 :=
    Nat.div_add_mod _ _
  have hc : ⌈(w : ℚ) / 1000⌉ = (((w + 999) / 1000 : ℕ) : ℤ) := by
    have h2 : (w + 999) % 1000 < 1000 := Nat.mod_lt _ (by norm_num)
    have h1q : (1000 : ℚ) * (((w + 999) / 1000 : ℕ) : ℚ) +
        (((w + 999) % 1000 : ℕ) : ℚ) = (w : ℚ) + 999 := by
      have := congrArg (fun x : ℕ => (x : ℚ)) h1
      push_cast at this
      linarith [this]
    have h0q : (0 : ℚ) ≤ (((w + 999) % 1000 : ℕ) : ℚ) := Nat.cast_nonneg _
    have h3q : (((w + 999) % 1000 : ℕ) : ℚ) ≤ 999 := by
      exact_mod_cast Nat.lt_succ_iff.mp h2
    have hdiv : ((w : ℚ) / 1000) * 1000 = (w : ℚ) :=
      div_mul_cancel₀ _ (by norm_num)
    rw [Int.ceil_eq_iff, Int.cast_natCast]
    constructor <;> linarith [h1q, h0q, h3q, hdiv]
  rw [hc]
  exact Int.toNat_natCast _

/-- `TokenBucket::refill` keeps the token count within `[0, capacity]`
and never moves `last_refill` backwards (the saturating subtraction makes
a backwards clock read look like zero elapsed time, which hits the
sub-millisecond early return). -/
theorem refill_invariant (now : ℕ) (b : TokenBucket)
    (h0 : 0 ≤ b.tokens) (h1 : b.tokens ≤ (b.capacity : ℚ)) :
    0 ≤ (TokenBucket.refill now b).tokens ∧
      (TokenBucket.refill now b).tokens ≤ ((TokenBucket.refill now b).capacity : ℚ) ∧
      b.last_refill ≤ (TokenBucket.refill now b).last_refill := by
  simp only [TokenBucket.refill]
  split
  · exact ⟨h0, h1, le_refl _⟩
  · rename_i hc
    push_neg at hc
    have he : (1 : ℚ) ≤ ((min (now - b.last_refill) 3600000 : ℕ) : ℚ) := by
      have := mul_le_mul_of_nonneg_right hc (by norm_num : (0 : ℚ) ≤ 1000)
      rwa [div_mul_cancel₀ _ (by norm_num : (1000 : ℚ) ≠ 0),
        div_mul_cancel₀ _ (by norm_num : (1000 : ℚ) ≠ 0)] at this
    have heN : 1 ≤ min (now - b.last_refill) 3600000 := by exact_mod_cast he
    have hlast : b.last_refill ≤ now := by
      have h2 : 1 ≤ now - b.last_refill := le_trans heN (min_le_left _ _)
      omega
    refine ⟨?_, ?_, hlast⟩
    · split
      · rename_i hadd
        exact le_min (by linarith) (Nat.cast_nonneg _)
      · exact h0
    · split
      · exact min_le_right _ _
      · exact h1

/-- `TokenBucket::try_consume` keeps the token count within
`[0, capacity]` and never moves `last_refill` backwards. -/
theorem try_consume_invariant (now n : ℕ) (b : TokenBucket)
    (h0 : 0 ≤ b.tokens) (h1 : b.tokens ≤ (b.capacity : ℚ)) :
    0 ≤ ((TokenBucket.try_consume now n b).2).tokens ∧
      ((TokenBucket.try_consume now n b).2).tokens ≤
        (((TokenBucket.try_consume now n b).2).capacity : ℚ) ∧
      b.last_refill ≤ ((TokenBucket.try_consume now n b).2).last_refill := by
  obtain ⟨r0, r1, r2⟩ := refill_invariant now b h0 h1
  simp only [TokenBucket.try_consume]
  split
  · rename_i hok
    refine ⟨by simpa using sub_nonneg.mpr hok, ?_, r2⟩
    simpa using le_trans (sub_le_self _ (Nat.cast_nonneg n)) r1
  · exact ⟨r0, r1, r2⟩

/-- The per-bucket local consume keeps the token count within
`[0, capacity]` for a bucket with nonnegative refill rate, and does not
move `last_refill` backwards provided the clock read is at least the
bucket's stored timestamp. -/
theorem localConsume_invariant (now : ℕ) (b : LocalBucket)
    (h0 : 0 ≤ b.tokens) (_h1 : b.tokens ≤ (b.capacity : ℚ))
    (h2 : 0 ≤ b.refill_rate) (h3 : b.last_refill ≤ now) :
    0 ≤ ((localConsumeBucket now b).2).tokens ∧
      ((localConsumeBucket now b).2).tokens ≤
        (((localConsumeBucket now b).2).capacity : ℚ) ∧
      b.last_refill ≤ ((localConsumeBucket now b).2).last_refill := by
  have hadd : (0 : ℚ) ≤ b.refill_rate * (((now - b.last_refill : ℕ) : ℚ) / 1000) :=
    mul_nonneg h2 (by positivity)
  simp only [localConsumeBucket]
  split
  · rename_i hok
    refine ⟨by linarith, ?_, h3⟩
    simp only
    calc min (b.tokens + b.refill_rate * (((now - b.last_refill : ℕ) : ℚ) / 1000))
          (b.capacity : ℚ) - 1
        ≤ min (b.tokens + b.refill_rate * (((now - b.last_refill : ℕ) : ℚ) / 1000))
          (b.capacity : ℚ) := by linarith
      _ ≤ (b.capacity : ℚ) := min_le_right _ _
  · refine ⟨le_min (by linarith) (Nat.cast_nonneg _), min_le_right _ _, h3⟩

/-- The atomic Redis consume keeps the token count within `[0, capacity]`
(the caller-supplied capacity) for a stored bucket already within those
bounds, and never moves `last_refill` backwards, for a nonnegative refill
rate and a positive window. -/
theorem redisOp_invariant (now n cap window : ℕ) (rate : ℚ) (rb : RedisBucket)
    (h0 : 0 ≤ rb.tokens) (h1 : rb.tokens ≤ (cap : ℚ))
    (h2 : 0 ≤ rate) (_h3 : 0 < window) :
    0 ≤ ((atomicConsumeTokens now n cap rate window (some rb)).2.1).tokens ∧
      ((atomicConsumeTokens now n cap rate window (some rb)).2.1).tokens ≤ (cap : ℚ) ∧
      rb.last_refill ≤
        ((atomicConsumeTokens now n cap rate window (some rb)).2.1).last_refill := by
  have href : 0 ≤ (redisRefill now cap rate window rb).tokens ∧
      (redisRefill now cap rate window rb).tokens ≤ (cap : ℚ) ∧
      rb.last_refill ≤ (redisRefill now cap rate window rb).last_refill := by
    simp only [redisRefill]
    split
    · rename_i hpos
      have hlast : rb.last_refill ≤ now := by
        have : (rb.last_refill : ℤ) < (now : ℤ) := by linarith [sub_pos.mp hpos]
        exact_mod_cast le_of_lt this
      have hfl : (0 : ℚ) ≤
          ((⌊(((now : ℤ) - (rb.last_refill : ℤ) : ℤ) : ℚ) * rate / (window : ℚ)⌋ : ℤ) : ℚ) := by
        have harg : (0 : ℚ) ≤ (((now : ℤ) - (rb.last_refill : ℤ) : ℤ) : ℚ) * rate / (window : ℚ) := by
          apply div_nonneg (mul_nonneg ?_ h2) (Nat.cast_nonneg _)
          exact_mod_cast le_of_lt hpos
        exact_mod_cast Int.floor_nonneg.mpr harg
      exact ⟨le_min (Nat.cast_nonneg _) (by linarith), min_le_left _ _, hlast⟩
    · exact ⟨h0, h1, le_refl _⟩
  obtain ⟨r0, r1, r2⟩ := href
  simp only [atomicConsumeTokens, redisConsume]
  split
  · rename_i hok
    refine ⟨by simpa using sub_nonneg.mpr hok, ?_, r2⟩
    simpa using le_trans (sub_le_self _ (Nat.cast_nonneg n)) r1
  · exact ⟨r0, r1, r2⟩

/-- C1 counterexample: the local consume path writes `last_refill :=
current_time` unconditionally, so under a backwards clock read
(`now = 500` against a stored `last_refill = 1000`) the bucket's
`last_refill` DECREASES from 1000 to 500, refuting the claim that it is
never smaller than its value before the operation. -/
theorem claim1_counterexample :
    (checkRateLimitWithParams 500 "k" 10 1 (fun _ => some ⟨5, 10, 1, 1000⟩)).2 "k" =
        some ⟨4, 10, 1, 500⟩ ∧ (500 : ℕ) < 1000 := by
  refine ⟨?_, by decide⟩
  norm_num [checkRateLimitWithParams, localConsumeBucket, min_def]

/-- C1 (amended): every operation — `TokenBucket::refill`,
`TokenBucket::try_consume`, the local consume of
`check_rate_limit_with_params`, and the distributed atomic consume —
keeps the bucket's token count within `[0, capacity]` (caller capacity for
the distributed path) starting from a bucket within bounds with
nonnegative refill rate; and `last_refill` never decreases, PROVIDED the
local path's clock read is not behind the stored timestamp (the
`TokenBucket` and distributed operations need no such proviso because they
guard the elapsed time, but the local path does not). -/
theorem claim1_ops_preserve_invariants
    (now nb nr cap window : ℕ) (rate : ℚ)
    (b : TokenBucket) (lb : LocalBucket) (rb : RedisBucket)
    (hb0 : 0 ≤ b.tokens) (hb1 : b.tokens ≤ (b.capacity : ℚ))
    (hl0 : 0 ≤ lb.tokens) (hl1 : lb.tokens ≤ (lb.capacity : ℚ))
    (hl2 : 0 ≤ lb.refill_rate) (hl3 : lb.last_refill ≤ now)
    (hr0 : 0 ≤ rb.tokens) (hr1 : rb.tokens ≤ (cap : ℚ))
    (hr2 : 0 ≤ rate) (hr3 : 0 < window) :
    (0 ≤ (TokenBucket.refill now b).tokens ∧
      (TokenBucket.refill now b).tokens ≤ ((TokenBucket.refill now b).capacity : ℚ) ∧
      b.last_refill ≤ (TokenBucket.refill now b).last_refill) ∧
    (0 ≤ ((TokenBucket.try_consume now nb b).2).tokens ∧
      ((TokenBucket.try_consume now nb b).2).tokens ≤
        (((TokenBucket.try_consume now nb b).2).capacity : ℚ) ∧
      b.last_refill ≤ ((TokenBucket.try_consume now nb b).2).last_refill) ∧
    (0 ≤ ((localConsumeBucket now lb).2).tokens ∧
      ((localConsumeBucket now lb).2).tokens ≤
        (((localConsumeBucket now lb).2).capacity : ℚ) ∧
      lb.last_refill ≤ ((localConsumeBucket now lb).2).last_refill) ∧
    (0 ≤ ((atomicConsumeTokens now nr cap rate window (some rb)).2.1).tokens ∧
      ((atomicConsumeTokens now nr cap rate window (some rb)).2.1).tokens ≤ (cap : ℚ) ∧
      rb.last_refill ≤
        ((atomicConsumeTokens now nr cap rate window (some rb)).2.1).last_refill) :=
  ⟨refill_invariant now b hb0 hb1,
   try_consume_invariant now nb b hb0 hb1,
   localConsume_invariant now lb hl0 hl1 hl2 hl3,
   redisOp_invariant now nr cap window rate rb hr0 hr1 hr2 hr3⟩

/-- C1 witness: the amended invariants instantiated at a concrete bucket
for each of the four operations. -/
theorem claim1_ops_preserve_invariants_witness :
    (0 ≤ (TokenBucket.refill 1000 ⟨10, 5, 1, 0⟩).tokens ∧
      (TokenBucket.refill 1000 ⟨10, 5, 1, 0⟩).tokens ≤
        ((TokenBucket.refill 1000 ⟨10, 5, 1, 0⟩).capacity : ℚ) ∧
      (⟨10, 5, 1, 0⟩ : TokenBucket).last_refill ≤
        (TokenBucket.refill 1000 ⟨10, 5, 1, 0⟩).last_refill) ∧
    (0 ≤ ((TokenBucket.try_consume 1000 1 ⟨10, 5, 1, 0⟩).2).tokens ∧
      ((TokenBucket.try_consume 1000 1 ⟨10, 5, 1, 0⟩).2).tokens ≤
        (((TokenBucket.try_consume 1000 1 ⟨10, 5, 1, 0⟩).2).capacity : ℚ) ∧
      (⟨10, 5, 1, 0⟩ : TokenBucket).last_refill ≤
        ((TokenBucket.try_consume 1000 1 ⟨10, 5, 1, 0⟩).2).last_refill) ∧
    (0 ≤ ((localConsumeBucket 1000 ⟨5, 10, 1, 0⟩).2).tokens ∧
      ((localConsumeBucket 1000 ⟨5, 10, 1, 0⟩).2).tokens ≤
        (((localConsumeBucket 1000 ⟨5, 10, 1, 0⟩).2).capacity : ℚ) ∧
      (⟨5, 10, 1, 0⟩ : LocalBucket).last_refill ≤
        ((localConsumeBucket 1000 ⟨5, 10, 1, 0⟩).2).last_refill) ∧
    (0 ≤ ((atomicConsumeTokens 1000 1 10 2 60000
        (some ⟨5, 10, 2, 60000, 0⟩)).2.1).tokens ∧
      ((atomicConsumeTokens 1000 1 10 2 60000
        (some ⟨5, 10, 2, 60000, 0⟩)).2.1).tokens ≤ ((10 : ℕ) : ℚ) ∧
      (⟨5, 10, 2, 60000, 0⟩ : RedisBucket).last_refill ≤
        ((atomicConsumeTokens 1000 1 10 2 60000
          (some ⟨5, 10, 2, 60000, 0⟩)).2.1).last_refill) :=
  claim1_ops_preserve_invariants 1000 1 1 10 60000 2
    ⟨10, 5, 1, 0⟩ ⟨5, 10, 1, 0⟩ ⟨5, 10, 2, 60000, 0⟩
    (by norm_num) (by norm_num) (by norm_num) (by norm_num) (by norm_num)
    (by norm_num) (by norm_num) (by norm_num) (by norm_num) (by norm_num)

/-- C10: for every bucket and every requested token count, when
`try_consume` returns `false` (denied) the bucket equals the result of the
refill step alone — a denied request deducts no tokens. -/
theorem claim10_denied_consume_deducts_nothing (now n : ℕ) (b : TokenBucket)
    (h : (TokenBucket.try_consume now n b).1 = false) :
    (TokenBucket.try_consume now n b).2 = TokenBucket.refill now b := by
  unfold TokenBucket.try_consume at *
  by_cases hc : (n : ℚ) ≤ (TokenBucket.refill now b).tokens
  · simp [hc] at h
  · simp [hc]

/-- C10 witness: a bucket with no tokens denies a 5-token request at
`now = 0`, and the state after the denial equals the refill result. -/
theorem claim10_denied_consume_deducts_nothing_witness :
    (TokenBucket.try_consume 0 5 ⟨10, 0, 1, 0⟩).1 = false ∧
      (TokenBucket.try_consume 0 5 ⟨10, 0, 1, 0⟩).2 =
        TokenBucket.refill 0 ⟨10, 0, 1, 0⟩ :=
  ⟨by norm_num [TokenBucket.try_consume, TokenBucket.refill],
   claim10_denied_consume_deducts_nothing 0 5 ⟨10, 0, 1, 0⟩
     (by norm_num [TokenBucket.try_consume, TokenBucket.refill])⟩

/-- C8: a key whose explicit rule is disabled is reported as allowed
(`should_throttle` returns `false`) with the whole throttler state — in
particular every bucket — unchanged, for every prior state and clock. -/
theorem claim8_disabled_rule_allows_without_consuming (cfg : Config)
    (now : ℕ) (key : String) (s : ThrottlerState) (r : RateLimitRule)
    (h1 : s.rules key = some r) (h2 : r.enabled = false) :
    shouldThrottle cfg now key s = (false, s) := by
  unfold shouldThrottle
  rw [h1]
  simp [h2]

/-- C8 witness: with a disabled rule stored for key `e`, the admission
check allows the request and leaves the state untouched. -/
theorem claim8_disabled_rule_allows_without_consuming_witness :
    disabledState.rules "e" = some ⟨10, 10, 60000, false⟩ ∧
      (⟨10, 10, 60000, false⟩ : RateLimitRule).enabled = false ∧
      shouldThrottle ⟨10, 2⟩ 0 "e" disabledState = (false, disabledState) :=
  ⟨rfl, rfl,
   claim8_disabled_rule_allows_without_consuming ⟨10, 2⟩ 0 "e" disabledState
     ⟨10, 10, 60000, false⟩ rfl rfl⟩

/-- C9 counterexample: with an explicit rule of capacity 5 stored for key
`k` and a configured default capacity of 10, resetting `k` and then
peeking yields 10 — the default capacity — and not the rule's capacity 5,
so the claim as stated is false. -/
theorem claim9_counterexample :
    getRemainingTokens 10 "k" (resetBuckets "k" (fun _ => some ⟨0, 5, 2, 0⟩)) = 10 ∧
      (resolvedRule (fun _ => some ⟨2, 5, 60000, true⟩) "k").burst_capacity = 5 ∧
      (10 : ℕ) ≠ 5 := by
  refine ⟨?_, rfl, by decide⟩
  simp [getRemainingTokens, resetBuckets]

/-- C9 (amended): after `reset(k)`, peeking the remaining tokens for `k`
yields the configuration's DEFAULT capacity, whatever per-key rule or
bucket state existed before; this equals the rule's capacity only when no
per-key rule overrides the default. -/
theorem claim9_reset_then_peek_default_capacity (defaultCapacity : ℕ)
    (key : String) (buckets : String → Option LocalBucket) :
    getRemainingTokens defaultCapacity key (resetBuckets key buckets) =
      defaultCapacity := by
  simp [getRemainingTokens, resetBuckets]

/-- C7 counterexample: the key `a.b` is accepted by the spec grammar
(dots are allowed there) but rejected by the source's validation, so the
two disagree and the claimed equivalence is false. -/
theorem claim7_counterexample :
    specKeyGrammar "a.b".data = true ∧ validateKeyChars "a.b".data = false := by
  constructor <;> decide

/-- C7 (amended): key validation accepts exactly the strings whose
whitespace-trimmed form is non-empty and consists only of alphanumeric
characters, hyphens and underscores — dots are rejected, there is no
256-byte length cap, and leading/trailing whitespace is stripped rather
than rejected (characters are modelled over ASCII, where Rust's Unicode
alphanumeric class coincides with `Char.isAlphanum`). -/
theorem claim7_key_validation_characterization (key : List Char) :
    validateKeyChars key = true ↔
      (trimChars key ≠ [] ∧
        ∀ c ∈ trimChars key, (c.isAlphanum = true ∨ c = '-' ∨ c = '_')) := by
  simp [validateKeyChars, isValidKeyChar, List.all_eq_true, List.isEmpty_iff,
    or_assoc]

/-- C5 counterexample: a bucket holding 15 tokens with capacity 10 and
refill rate 0, refilled after 1000 ms, keeps its 15 tokens — the code
skips the token update (and in particular the clamp) whenever
`tokens_to_add` is not strictly positive — while the claim's formula
`min(capacity, tokens + refill_rate × elapsed / 1000)` demands 10. -/
theorem claim5_counterexample :
    (TokenBucket.refill 1000 ⟨10, 15, 0, 0⟩).tokens = 15 ∧
      min (((10 : ℕ) : ℚ)) ((15 : ℚ) + 0 * (1000 / 1000)) = 10 ∧
      (15 : ℚ) ≠ 10 := by
  refine ⟨?_, by norm_num, by norm_num⟩
  norm_num [TokenBucket.refill]

/-- C5 (amended): `refill` computes `elapsed = max(0, now − last_refill)`
capped at one hour; if `elapsed` is below 1 ms the bucket is returned
unchanged; otherwise `last_refill` becomes `now`, and the token count
becomes `min(capacity, tokens + refill_rate × elapsed/1000)` when
`refill_rate > 0` but is left UNCHANGED (not even clamped) when
`refill_rate ≤ 0`, because the code only applies the update when
`tokens_to_add` is strictly positive. -/
theorem claim5_refill_characterization (b : TokenBucket) (now : ℕ) :
    (min (now - b.last_refill) 3600000 = 0 → TokenBucket.refill now b = b) ∧
      (0 < min (now - b.last_refill) 3600000 →
        TokenBucket.refill now b =
          { b with
              tokens :=
                if 0 < b.refill_rate then
                  min (b.tokens + b.refill_rate *
                    (((min (now - b.last_refill) 3600000 : ℕ) : ℚ) / 1000))
                    (b.capacity : ℚ)
                else b.tokens
              last_refill := now }) := by
  constructor
  · intro h
    simp only [TokenBucket.refill, h]
    norm_num
  · intro h
    have he1 : (1 : ℚ) ≤ ((min (now - b.last_refill) 3600000 : ℕ) : ℚ) := by
      exact_mod_cast h
    have hsec : (0 : ℚ) < ((min (now - b.last_refill) 3600000 : ℕ) : ℚ) / 1000 :=
      div_pos (lt_of_lt_of_le one_pos he1) (by norm_num)
    have hcond : ¬ (((min (now - b.last_refill) 3600000 : ℕ) : ℚ) / 1000 < 1 / 1000) := by
      push_neg
      gcongr
    simp only [TokenBucket.refill]
    rw [if_neg hcond]
    by_cases hr : 0 < b.refill_rate
    · rw [if_pos (mul_pos hr hsec), if_pos hr]
    · rw [if_neg (not_lt.mpr (by nlinarith [not_lt.mp hr, hsec.le])), if_neg hr]

/-- C5 witness: a bucket with capacity 10, 5 tokens and rate 2/s refilled
after half a second gains exactly one token and its timestamp advances. -/
theorem claim5_refill_characterization_witness :
    0 < min (500 - 0) 3600000 ∧
      TokenBucket.refill 500 ⟨10, 5, 2, 0⟩ = ⟨10, 6, 2, 500⟩ := by
  refine ⟨by norm_num, ?_⟩
  have h := (claim5_refill_characterization ⟨10, 5, 2, 0⟩ 500).2 (by norm_num)
  rw [h]
  simp only [TokenBucket.mk.injEq]
  norm_num [min_def]

/-- C6 counterexample: an empty bucket refilling at 3 tokens/s asked for
one token waits exactly 1/3 s = 1000/3 ms — the code returns the exact
fractional duration `(n − tokens)/refill_rate` — whereas the claim's
`ceil((n − tokens)/refill_rate × 1000)` demands 334 ms, a different
value, so the claim as stated is false. -/
theorem claim6_counterexample :
    (TokenBucket.time_until_tokens 5 1 ⟨10, 0, 3, 5⟩).1 * 1000 = 1000 / 3 ∧
      (⌈(((1 : ℚ) - 0) / 3) * 1000⌉ : ℤ) = 334 ∧
      (1000 / 3 : ℚ) ≠ 334 := by
  refine ⟨?_, by rw [show (((1 : ℚ) - 0) / 3) * 1000 = 1000 / 3 by norm_num,
    Int.ceil_eq_iff] ; norm_num, by norm_num⟩
  norm_num [TokenBucket.time_until_tokens, TokenBucket.refill, min_def]

/-- C6 (amended): `time_until_tokens` first refills; it returns 0 when the
refilled bucket already holds `n` tokens, `u64::MAX` (2^64 − 1) seconds
when it does not and the refill rate is nonpositive, and otherwise the
EXACT fractional duration `(n − tokens)/refill_rate` seconds (not the
millisecond ceiling), capped at 24 hours (86400 s); the refilled bucket is
returned alongside. -/
theorem claim6_time_until_characterization (b : TokenBucket) (now n : ℕ) :
    (TokenBucket.time_until_tokens now n b).2 = TokenBucket.refill now b ∧
      ((n : ℚ) ≤ (TokenBucket.refill now b).tokens →
        (TokenBucket.time_until_tokens now n b).1 = 0) ∧
      ((TokenBucket.refill now b).tokens < (n : ℚ) →
        (TokenBucket.refill now b).refill_rate ≤ 0 →
        (TokenBucket.time_until_tokens now n b).1 = 2 ^ 64 - 1) ∧
      ((TokenBucket.refill now b).tokens < (n : ℚ) →
        0 < (TokenBucket.refill now b).refill_rate →
        (TokenBucket.time_until_tokens now n b).1 =
          min (((n : ℚ) - (TokenBucket.refill now b).tokens) /
            (TokenBucket.refill now b).refill_rate) 86400) := by
  refine ⟨?_, ?_, ?_, ?_⟩
  · simp only [TokenBucket.time_until_tokens]
    split
    · rfl
    · split <;> rfl
  · intro h1
    simp [TokenBucket.time_until_tokens, h1]
  · intro h1 h2
    simp [TokenBucket.time_until_tokens, not_le.mpr h1, h2]
  · intro h1 h2
    simp [TokenBucket.time_until_tokens, not_le.mpr h1, not_le.mpr h2]

/-- C6 witness: the empty bucket with rate 3/s and a one-token request
falls in the exact-fractional-wait case of the characterization. -/
theorem claim6_time_until_characterization_witness :
    (TokenBucket.refill 5 ⟨10, 0, 3, 5⟩).tokens < (1 : ℚ) ∧
      0 < (TokenBucket.refill 5 ⟨10, 0, 3, 5⟩).refill_rate ∧
      (TokenBucket.time_until_tokens 5 1 ⟨10, 0, 3, 5⟩).1 =
        min (((1 : ℚ) - (TokenBucket.refill 5 ⟨10, 0, 3, 5⟩).tokens) /
          (TokenBucket.refill 5 ⟨10, 0, 3, 5⟩).refill_rate) 86400 := by
  refine ⟨by norm_num [TokenBucket.refill], by norm_num [TokenBucket.refill], ?_⟩
  have h := (claim6_time_until_characterization ⟨10, 0, 3, 5⟩ 5 1).2.2.2
    (by norm_num [TokenBucket.refill]) (by norm_num [TokenBucket.refill])
  exact_mod_cast h

/-- C3 counterexample: a local bucket stored for key `k` with capacity 5
and refill rate 1, consumed with caller parameters capacity 10 and refill
rate 99, is written back still carrying capacity 5 and rate 1 — the local
consume never rewrites an existing bucket's parameters, contradicting the
claim that differing rule values are rewritten before consuming. -/
theorem claim3_counterexample :
    (checkRateLimitWithParams 0 "k" 10 99 (fun _ => some ⟨5, 5, 1, 0⟩)).2 "k" =
        some ⟨4, 5, 1, 0⟩ ∧ (5 : ℕ) ≠ 10 ∧ (1 : ℚ) ≠ 99 := by
  refine ⟨?_, by decide, by norm_num⟩
  norm_num [checkRateLimitWithParams, localConsumeBucket, min_def]

/-- C3 (amended): for a key whose local bucket already exists, the consume
call uses and stores back the bucket's OWN stored `capacity` and
`refill_rate`; the caller's (rule's) values are ignored for existing
buckets and only seed newly created ones, so a rule change does not take
effect on an existing local bucket. -/
theorem claim3_existing_bucket_keeps_params (now : ℕ) (key : String)
    (capacity : ℕ) (refill_rate : ℚ) (buckets : String → Option LocalBucket)
    (b : LocalBucket) (h : buckets key = some b) :
    (checkRateLimitWithParams now key capacity refill_rate buckets).2 key =
        some ((localConsumeBucket now b).2) ∧
      ((localConsumeBucket now b).2).capacity = b.capacity ∧
      ((localConsumeBucket now b).2).refill_rate = b.refill_rate := by
  refine ⟨?_, ?_, ?_⟩
  · rcases he : localConsumeBucket now b with ⟨res, b'⟩
    simp [checkRateLimitWithParams, h, he]
  · simp only [localConsumeBucket]
    split <;> rfl
  · simp only [localConsumeBucket]
    split <;> rfl

/-- C3 witness: the amended statement applied to the concrete stored
bucket of the counterexample. -/
theorem claim3_existing_bucket_keeps_params_witness :
    ((fun _ => some (⟨5, 5, 1, 0⟩ : LocalBucket)) "k" =
        some (⟨5, 5, 1, 0⟩ : LocalBucket)) ∧
      ((checkRateLimitWithParams 0 "k" 10 99
          (fun _ => some ⟨5, 5, 1, 0⟩)).2 "k" =
          some ((localConsumeBucket 0 ⟨5, 5, 1, 0⟩).2) ∧
        ((localConsumeBucket 0 ⟨5, 5, 1, 0⟩).2).capacity = 5 ∧
        ((localConsumeBucket 0 ⟨5, 5, 1, 0⟩).2).refill_rate = 1) :=
  ⟨rfl, claim3_existing_bucket_keeps_params 0 "k" 10 99
    (fun _ => some ⟨5, 5, 1, 0⟩) ⟨5, 5, 1, 0⟩ rfl⟩

/-- C2 counterexample: a stored empty bucket refilled after 1500 ms with
refill rate 2 and window 2000 ms gains `floor(1500 × 2 / 2000) = 1` token
— an integer amount divided by the WINDOW, not the fractional
`2 × 1500 / 1000 = 3` the claim demands — so the claim as stated is
false. -/
theorem claim2_counterexample :
    (redisRefill 1500 10 2 2000 ⟨0, 10, 2, 2000, 0⟩).tokens = 1 ∧
      min (10 : ℚ) ((0 : ℚ) + 2 * (1500 / 1000)) = 3 ∧ (1 : ℚ) ≠ 3 := by
  refine ⟨?_, by rw [min_def] ; norm_num, by norm_num⟩
  have hfl : (⌊((((1500 : ℕ) : ℤ) - ((0 : ℕ) : ℤ) : ℤ) : ℚ) * 2 / ((2000 : ℕ) : ℚ)⌋ : ℤ) = 1 := by
    rw [Int.floor_eq_iff] ; norm_num
  simp only [redisRefill, hfl]
  norm_num [min_def]

/-- C2 (amended): for an existing stored bucket the atomic script, when
`now > last_refill`, adds exactly `floor((now − last_refill) × refill_rate
/ window_ms)` tokens — an integer count, floored, with the rule's WINDOW
as the denominator rather than 1000 — and then clamps down to the
caller-supplied capacity; when `now ≤ last_refill` the bucket is left
completely untouched (no clamp either); the consume is then attempted on
that bucket and the result written back with the script's TTL. -/
theorem claim2_atomic_refill_floor (now n cap window : ℕ) (rate : ℚ)
    (rb : RedisBucket) :
    (now ≤ rb.last_refill → redisRefill now cap rate window rb = rb) ∧
      (rb.last_refill < now →
        redisRefill now cap rate window rb =
          { rb with
              tokens := min (cap : ℚ) (rb.tokens +
                ((⌊((now : ℚ) - (rb.last_refill : ℚ)) * rate / (window : ℚ)⌋ : ℤ) : ℚ))
              last_refill := now }) ∧
      atomicConsumeTokens now n cap rate window (some rb) =
        ((redisConsume n (redisRefill now cap rate window rb)).1,
          (redisConsume n (redisRefill now cap rate window rb)).2,
          (window + 999) / 1000) := by
  refine ⟨?_, ?_, ?_⟩
  · intro h
    have hnp : ¬ (0 < (now : ℤ) - (rb.last_refill : ℤ)) := by
      rw [not_lt, sub_nonpos]
      exact_mod_cast h
    simp [redisRefill, hnp]
  · intro h
    have hpos : 0 < (now : ℤ) - (rb.last_refill : ℤ) := by
      rw [sub_pos]
      exact_mod_cast h
    have harg : (((now : ℤ) - (rb.last_refill : ℤ) : ℤ) : ℚ) =
        (now : ℚ) - (rb.last_refill : ℚ) := by
      push_cast
      ring
    simp only [redisRefill]
    rw [if_pos hpos, harg]
  · rcases hc : redisConsume n (redisRefill now cap rate window rb) with ⟨s, b2⟩
    simp [atomicConsumeTokens, hc, atomicConsumeTTL, ttl_ceil_eq]

/-- C2 witness: the amended refill formula at the counterexample's
concrete stored bucket. -/
theorem claim2_atomic_refill_floor_witness :
    (⟨0, 10, 2, 2000, 0⟩ : RedisBucket).last_refill < 1500 ∧
      redisRefill 1500 10 2 2000 ⟨0, 10, 2, 2000, 0⟩ = ⟨1, 10, 2, 2000, 1500⟩ := by
  refine ⟨by norm_num, ?_⟩
  have h := (claim2_atomic_refill_floor 1500 1 10 2000 2 ⟨0, 10, 2, 2000, 0⟩).2.1
    (by norm_num)
  rw [h]
  have hfl : (⌊((1500 : ℚ) - (((0 : ℕ) : ℕ) : ℚ)) * 2 / ((2000 : ℕ) : ℚ)⌋ : ℤ) = 1 := by
    rw [Int.floor_eq_iff] ; norm_num
  simp only [RedisBucket.mk.injEq]
  norm_num [hfl, min_def]

/-- C4 counterexample: for a 1000 ms window the script sets a TTL of
`ceil(1000/1000) = 1` second, not the `ceil(1000 × 2 / 1000) = 2` seconds
the claim demands — the factor of two is absent from the code. -/
theorem claim4_counterexample :
    (atomicConsumeTokens 0 1 10 2 1000 none).2.2 = 1 ∧
      Int.toNat ⌈((1000 : ℚ) * 2) / 1000⌉ = 2 ∧ (1 : ℕ) ≠ 2 := by
  refine ⟨?_, ?_, by decide⟩
  · simp [atomicConsumeTokens, atomicConsumeTTL, ttl_ceil_eq]
  · rw [show ((1000 : ℚ) * 2) / 1000 = 2 by norm_num]
    simp

/-- C4 (amended): every write performed by the distributed consume sets
the stored value's TTL to `ceil(window_ms / 1000)` seconds — equivalently
`(window_ms + 999) div 1000` — renewed on each write; the claimed factor
of two is not applied. -/
theorem claim4_ttl_every_write (now n cap window : ℕ) (rate : ℚ)
    (stored : Option RedisBucket) :
    (atomicConsumeTokens now n cap rate window stored).2.2 =
      (window + 999) / 1000 := by
  cases stored <;> simp [atomicConsumeTokens, atomicConsumeTTL, ttl_ceil_eq]

end Throttler
